import Mathlib

/-!
Shallow embedding of `bevy_prototype_lyon`'s tessellation-to-mesh pipeline
(`src/plugin.rs`) together with the repository types it uses from its own
`vertex.rs` / `draw.rs` / `entity.rs` modules (those files are not in the
source snapshot; they are modelled from the spec where noted) and the
documented boundary contract of the external lyon tessellation library
(a tessellator streams vertex/triangle events into a caller-supplied
geometry builder).

Machine integers: vertex indices are `u32` in the code; the pipeline never
wraps them (lyon's builders fail with `TooManyVertices` long before 2^32),
so they are embedded as `Nat`.  Vertex coordinates are `f32` pairs, but this
core never computes on them — it only copies them and widens with `z = 0` —
so they are embedded as exact `Int` pairs carried opaquely.
-/

namespace BevyLyon

/-- Packed color value (`u32` in the code); opaque RGBA-like, copyable. -/
abbrev Color := Nat

/-- Modelled from the spec: `Vertex` from the repository's `vertex.rs`
(not in the snapshot): `{position: 2D float pair, color: packed color value}`. -/
structure Vertex where
  position : Int × Int
  color : Color
deriving DecidableEq

/-- Modelled from the spec: `VertexBuffers` from `vertex.rs` — the growable
vertex/index buffer pair accumulating tessellation output
(`tess::VertexBuffers<Vertex, u32>`). -/
structure VertexBuffers where
  vertices : List Vertex
  indices : List Nat
deriving DecidableEq

/-- `VertexBuffers::new()` — a fresh pair of empty buffers. -/
def VertexBuffers.new : VertexBuffers := ⟨[], []⟩

/-- One path command; the path is opaque to this core (it is only handed to
the tessellator), so its exact constructors serve only to distinguish paths. -/
inductive PathSeg
  | moveTo (p : Int × Int)
  | lineTo (p : Int × Int)
  | close
deriving DecidableEq

/-- The external library's `tess::path::Path`: an ordered sequence of path
commands. -/
abbrev LyonPath := List PathSeg

/-- Modelled from the spec: the `Path` component from the repository's
`entity.rs` (not in the snapshot), a newtype over the library path; the mesh
system passes `&path.0` to the tessellation drivers. -/
structure Path where
  p : LyonPath
deriving DecidableEq

/-- Fill tessellation options (spec: `{tolerance}`); tolerance is opaque
to this core. -/
structure FillOptions where
  tolerance : Int
deriving DecidableEq

/-- Stroke line cap style. -/
inductive LineCap
  | butt
  | square
  | round
deriving DecidableEq

/-- Stroke line join style. -/
inductive LineJoin
  | miter
  | miterClip
  | round
  | bevel
deriving DecidableEq

/-- Stroke tessellation options (spec: `{tolerance, line_width, start_cap,
end_cap, line_join, miter_limit}`); all opaque to this core. -/
structure StrokeOptions where
  tolerance : Int
  line_width : Int
  start_cap : LineCap
  end_cap : LineCap
  line_join : LineJoin
  miter_limit : Int
deriving DecidableEq

/-- Modelled from the spec: `FillMode` from the repository's `draw.rs`
(not in the snapshot): fill options plus a color. -/
structure FillMode where
  options : FillOptions
  color : Color
deriving DecidableEq

/-- Modelled from the spec: `StrokeMode` from `draw.rs`: stroke options plus
a color. -/
structure StrokeMode where
  options : StrokeOptions
  color : Color
deriving DecidableEq

/-- Modelled from the spec: `DrawMode` from `draw.rs` — the tagged-union
style: `Fill`, `Stroke`, or `Outlined { fill_mode, outline_mode }`. -/
inductive DrawMode
  | fill (mode : FillMode)
  | stroke (mode : StrokeMode)
  | outlined (fill_mode : FillMode) (outline_mode : StrokeMode)
deriving DecidableEq

/-- The external library's `tess::Count`: vertex/index counts returned by
`end_geometry`. -/
structure Count where
  vertices : Nat
  indices : Nat
deriving DecidableEq

/-- The external library's `GeometryBuilderError` (e.g. too many vertices). -/
inductive GBError
  | tooManyVertices
deriving DecidableEq

/-- Data the builder can read from a `tess::FillVertex`: its position. -/
structure FillVertexData where
  position : Int × Int
deriving DecidableEq

/-- Data the builder can read from a `tess::StrokeVertex`: its position. -/
structure StrokeVertexData where
  position : Int × Int
deriving DecidableEq

/-- The external library's geometry-builder interface (the union of
`tess::GeometryBuilder`, `tess::FillGeometryBuilder` and
`tess::StrokeGeometryBuilder`), embedded as explicit state passing over a
builder state `σ`.  Triangles are given as three vertex identifiers. -/
structure GeometryBuilder (σ : Type) where
  begin_geometry : σ → σ
  end_geometry : σ → σ × Count
  abort_geometry : σ → σ
  add_triangle : σ → Nat → Nat → Nat → σ
  add_fill_vertex : σ → FillVertexData → σ × Except GBError Nat
  add_stroke_vertex : σ → StrokeVertexData → σ × Except GBError Nat

/-- `CcwBuffersBuilder` from `src/plugin.rs` lines 102-157: wraps an
underlying builder; `add_triangle(a, b, c)` forwards `(a, c, b)` to the
inner builder, every other operation is forwarded unchanged. -/
def CcwBuffersBuilder {σ : Type} (g : GeometryBuilder σ) : GeometryBuilder σ where
  begin_geometry := g.begin_geometry
  end_geometry := g.end_geometry
  abort_geometry := g.abort_geometry
  add_triangle := fun s a b c => g.add_triangle s a c b
  add_fill_vertex := g.add_fill_vertex
  add_stroke_vertex := g.add_stroke_vertex

/-- C1: for every triangle `(a, b, c)` the tessellator emits into the winding
adapter, the adapter forwards exactly `(a, c, b)` to the underlying builder,
and `begin_geometry`, `end_geometry`, `abort_geometry`, `add_fill_vertex`
and `add_stroke_vertex` are passed through unchanged, so the adapter alters
neither vertex count, nor vertex attributes, nor triangle count. -/
theorem ccw_adapter_swaps_and_passes_through {σ : Type} (g : GeometryBuilder σ)
    (s : σ) (a b c : Nat) (v : FillVertexData) (w : StrokeVertexData) :
    (CcwBuffersBuilder g).add_triangle s a b c = g.add_triangle s a c b ∧
    (CcwBuffersBuilder g).begin_geometry s = g.begin_geometry s ∧
    (CcwBuffersBuilder g).end_geometry s = g.end_geometry s ∧
    (CcwBuffersBuilder g).abort_geometry s = g.abort_geometry s ∧
    (CcwBuffersBuilder g).add_fill_vertex s v = g.add_fill_vertex s v ∧
    (CcwBuffersBuilder g).add_stroke_vertex s w = g.add_stroke_vertex s w := by
  exact ⟨rfl, rfl, rfl, rfl, rfl, rfl⟩

/-- One event a tessellator streams into its geometry builder: register a
vertex (the builder assigns it the next identifier, counted from the start
of this tessellation run) or emit a triangle of three such identifiers. -/
inductive TessOp
  | addVertex (p : Int × Int)
  | addTriangle (a b c : Nat)
deriving DecidableEq

/-- The external library's `TessellationError`; opaque to this core (it is
only logged), so a tag suffices to distinguish errors. -/
structure TessError where
  code : Nat
deriving DecidableEq

/-- The external `FillTessellator`, embedded by its boundary contract: a
stateful black box (`τ` is its internal scratch state) that, given a path
and fill options, produces the event trace it streams into the builder —
the events emitted before any failure — and `some` error on failure. -/
structure FillTessellator (τ : Type) where
  run : τ → LyonPath → FillOptions → τ × List TessOp × Option TessError

/-- The external `StrokeTessellator`, embedded like `FillTessellator`. -/
structure StrokeTessellator (τ : Type) where
  run : τ → LyonPath → StrokeOptions → τ × List TessOp × Option TessError

/-- Replay a tessellator event trace into a geometry builder, registering
vertices through `add_fill_vertex` (the returned identifier is consumed by
the tessellator, which we embed as emitting identifiers counted from 0). -/
def runFillOps {σ : Type} (g : GeometryBuilder σ) : σ → List TessOp → σ
  | s, [] => s
  | s, .addVertex p :: rest => runFillOps g (g.add_fill_vertex s ⟨p⟩).1 rest
  | s, .addTriangle a b c :: rest => runFillOps g (g.add_triangle s a b c) rest

/-- Replay a tessellator event trace into a geometry builder, registering
vertices through `add_stroke_vertex`. -/
def runStrokeOps {σ : Type} (g : GeometryBuilder σ) : σ → List TessOp → σ
  | s, [] => s
  | s, .addVertex p :: rest => runStrokeOps g (g.add_stroke_vertex s ⟨p⟩).1 rest
  | s, .addTriangle a b c :: rest => runStrokeOps g (g.add_triangle s a b c) rest

/-- The external library's `tessellate_path` protocol for fills:
`begin_geometry`, stream the events, then `end_geometry` on success or
`abort_geometry` on failure, returning the error to the caller. -/
def FillTessellator.tessellate_path {τ σ : Type} (t : FillTessellator τ) (ts : τ)
    (path : LyonPath) (opts : FillOptions) (g : GeometryBuilder σ) (s : σ) :
    τ × σ × Option TessError :=
  let r := t.run ts path opts
  let s1 := runFillOps g (g.begin_geometry s) r.2.1
  match r.2.2 with
  | none => (r.1, (g.end_geometry s1).1, none)
  | some e => (r.1, g.abort_geometry s1, some e)

/-- The external library's `tessellate_path` protocol for strokes. -/
def StrokeTessellator.tessellate_path {τ σ : Type} (t : StrokeTessellator τ) (ts : τ)
    (path : LyonPath) (opts : StrokeOptions) (g : GeometryBuilder σ) (s : σ) :
    τ × σ × Option TessError :=
  let r := t.run ts path opts
  let s1 := runStrokeOps g (g.begin_geometry s) r.2.1
  match r.2.2 with
  | none => (r.1, (g.end_geometry s1).1, none)
  | some e => (r.1, g.abort_geometry s1, some e)

/-- Modelled from the spec: `VertexConstructor` from the repository's
`vertex.rs` (not in the snapshot) — a vertex constructor that stamps every
emitted vertex with the style's color. -/
structure VertexConstructor where
  color : Color
deriving DecidableEq

/-- The vertex `VertexConstructor` builds from tessellator vertex data. -/
def VertexConstructor.new_vertex (ctor : VertexConstructor) (p : Int × Int) : Vertex :=
  ⟨p, ctor.color⟩

/-- State of the external library's `BuffersBuilder`: the buffers it appends
to, plus the vertex/index offsets captured at construction (`new` records
the current lengths so that appended triangles index into the shared
buffers absolutely while the tessellator works with run-relative ids). -/
structure BBState where
  buffers : VertexBuffers
  vertex_offset : Nat
  index_offset : Nat
deriving DecidableEq

/-- `BuffersBuilder::new(buffers, ctor)` — capture the current buffer
lengths as offsets. -/
def BBState.new (buffers : VertexBuffers) : BBState :=
  ⟨buffers, buffers.vertices.length, buffers.indices.length⟩

/-- The external library's `BuffersBuilder` over `VertexBuffers`: vertex
registration constructs an output vertex via the constructor, appends it and
returns its run-relative identifier; `add_triangle` appends the three
identifiers shifted by the vertex offset; `abort_geometry` leaves already
appended geometry in place (spec: partial geometry before a failure stays). -/
def BuffersBuilder (ctor : VertexConstructor) : GeometryBuilder BBState where
  begin_geometry := fun s => s
  end_geometry := fun s =>
    (s, ⟨s.buffers.vertices.length - s.vertex_offset,
         s.buffers.indices.length - s.index_offset⟩)
  abort_geometry := fun s => s
  add_triangle := fun s a b c =>
    { s with buffers :=
        { s.buffers with indices := s.buffers.indices ++
            [s.vertex_offset + a, s.vertex_offset + b, s.vertex_offset + c] } }
  add_fill_vertex := fun s v =>
    ({ s with buffers :=
        { s.buffers with vertices := s.buffers.vertices ++ [ctor.new_vertex v.position] } },
     .ok (s.buffers.vertices.length - s.vertex_offset))
  add_stroke_vertex := fun s v =>
    ({ s with buffers :=
        { s.buffers with vertices := s.buffers.vertices ++ [ctor.new_vertex v.position] } },
     .ok (s.buffers.vertices.length - s.vertex_offset))

/-- One log record; the code's `error!` macro receives exactly the
tessellator kind (via the literal format text) and the error value. -/
inductive LogEntry
  | fillError (e : TessError)
  | strokeError (e : TessError)
deriving DecidableEq

/-- Result of one tessellation driver call: the tessellator scratch state,
the buffers, and the log records the call emitted. -/
structure TessRun (τ : Type) where
  tess : τ
  buffers : VertexBuffers
  log : List LogEntry
deriving DecidableEq

/-- `fill` from `src/plugin.rs` lines 160-176: tessellate the path with the
fill options through a `CcwBuffersBuilder` wrapping a `BuffersBuilder` that
stamps the mode's color; on error, log `FillTessellator error: {:?}` and
return normally with whatever the builder accumulated. -/
def fill {τ : Type} (t : FillTessellator τ) (ts : τ) (path : LyonPath)
    (mode : FillMode) (buffers : VertexBuffers) : TessRun τ :=
  let r := t.tessellate_path ts path mode.options
    (CcwBuffersBuilder (BuffersBuilder ⟨mode.color⟩)) (BBState.new buffers)
  match r.2.2 with
  | none => ⟨r.1, r.2.1.buffers, []⟩
  | some e => ⟨r.1, r.2.1.buffers, [LogEntry.fillError e]⟩

/-- `stroke` from `src/plugin.rs` lines 179-195: same shape as `fill` with
the stroke tessellator and options; logs `StrokeTessellator error: {:?}`. -/
def stroke {τ : Type} (t : StrokeTessellator τ) (ts : τ) (path : LyonPath)
    (mode : StrokeMode) (buffers : VertexBuffers) : TessRun τ :=
  let r := t.tessellate_path ts path mode.options
    (CcwBuffersBuilder (BuffersBuilder ⟨mode.color⟩)) (BBState.new buffers)
  match r.2.2 with
  | none => ⟨r.1, r.2.1.buffers, []⟩
  | some e => ⟨r.1, r.2.1.buffers, [LogEntry.strokeError e]⟩

/-- The vertices a tessellation run appends: one per `addVertex` event, each
stamped with the constructor's color. -/
def opsVertices (c : Color) : List TessOp → List Vertex
  | [] => []
  | .addVertex p :: rest => ⟨p, c⟩ :: opsVertices c rest
  | .addTriangle _ _ _ :: rest => opsVertices c rest

/-- The indices a tessellation run appends through the winding adapter and
the buffers builder: each emitted triangle `(a, b, c)` becomes the three
absolute indices `off + a`, `off + c`, `off + b` (adapter swap, then builder
offset). -/
def opsIndices (off : Nat) : List TessOp → List Nat
  | [] => []
  | .addVertex _ :: rest => opsIndices off rest
  | .addTriangle a b c :: rest => (off + a) :: (off + c) :: (off + b) :: opsIndices off rest

/-- Number of `addVertex` events in a trace. -/
def vcount : List TessOp → Nat
  | [] => 0
  | .addVertex _ :: rest => vcount rest + 1
  | .addTriangle _ _ _ :: rest => vcount rest

theorem opsVertices_length (c : Color) (ops : List TessOp) :
    (opsVertices c ops).length = vcount ops := by
  induction ops with
  | nil => rfl
  | cons op rest ih => cases op <;> simp [opsVertices, vcount, ih]

theorem opsVertices_color (c : Color) (ops : List TessOp) :
    ∀ v ∈ opsVertices c ops, v.color = c := by
  induction ops with
  | nil => intro v hv; simp [opsVertices] at hv
  | cons op rest ih =>
    intro v hv
    cases op with
    | addVertex p =>
      rcases (List.mem_cons).1 hv with h | h
      · subst h; rfl
      · exact ih v h
    | addTriangle a b c => exact ih v hv

theorem opsIndices_eq_map (off : Nat) (ops : List TessOp) :
    opsIndices off ops = (opsIndices 0 ops).map (off + ·) := by
  induction ops with
  | nil => rfl
  | cons op rest ih => cases op <;> simp [opsIndices, ih]

theorem mem_opsIndices (off : Nat) (ops : List TessOp) :
    ∀ i ∈ opsIndices off ops,
      ∃ a b c, TessOp.addTriangle a b c ∈ ops ∧ (i = off + a ∨ i = off + b ∨ i = off + c) := by
  induction ops with
  | nil => intro i hi; simp [opsIndices] at hi
  | cons op rest ih =>
    intro i hi
    cases op with
    | addVertex p =>
      obtain ⟨a, b, c, hmem, hv⟩ := ih i hi
      exact ⟨a, b, c, List.mem_cons_of_mem _ hmem, hv⟩
    | addTriangle a b c =>
      simp only [opsIndices, List.mem_cons] at hi
      rcases hi with h | h | h | h
      · exact ⟨a, b, c, List.mem_cons_self _ _, Or.inl h⟩
      · exact ⟨a, b, c, List.mem_cons_self _ _, Or.inr (Or.inr h)⟩
      · exact ⟨a, b, c, List.mem_cons_self _ _, Or.inr (Or.inl h)⟩
      · obtain ⟨a', b', c', hmem, hv⟩ := ih i h
        exact ⟨a', b', c', List.mem_cons_of_mem _ hmem, hv⟩

theorem opsIndices_length_mod3 (off : Nat) (ops : List TessOp) :
    (opsIndices off ops).length % 3 = 0 := by
  induction ops with
  | nil => rfl
  | cons op rest ih => cases op <;> simp [opsIndices] <;> omega

theorem ccwBB_begin (ctor : VertexConstructor) (s : BBState) :
    (CcwBuffersBuilder (BuffersBuilder ctor)).begin_geometry s = s := rfl

theorem ccwBB_end_fst (ctor : VertexConstructor) (s : BBState) :
    ((CcwBuffersBuilder (BuffersBuilder ctor)).end_geometry s).1 = s := rfl

theorem ccwBB_abort (ctor : VertexConstructor) (s : BBState) :
    (CcwBuffersBuilder (BuffersBuilder ctor)).abort_geometry s = s := rfl

theorem ccwBB_add_triangle (ctor : VertexConstructor) (s : BBState) (a b c : Nat) :
    (CcwBuffersBuilder (BuffersBuilder ctor)).add_triangle s a b c =
      ⟨⟨s.buffers.vertices,
        s.buffers.indices ++ [s.vertex_offset + a, s.vertex_offset + c, s.vertex_offset + b]⟩,
       s.vertex_offset, s.index_offset⟩ := rfl

theorem ccwBB_add_fill_vertex_fst (ctor : VertexConstructor) (s : BBState) (v : FillVertexData) :
    ((CcwBuffersBuilder (BuffersBuilder ctor)).add_fill_vertex s v).1 =
      ⟨⟨s.buffers.vertices ++ [⟨v.position, ctor.color⟩], s.buffers.indices⟩,
       s.vertex_offset, s.index_offset⟩ := rfl

theorem ccwBB_add_stroke_vertex_fst (ctor : VertexConstructor) (s : BBState) (v : StrokeVertexData) :
    ((CcwBuffersBuilder (BuffersBuilder ctor)).add_stroke_vertex s v).1 =
      ⟨⟨s.buffers.vertices ++ [⟨v.position, ctor.color⟩], s.buffers.indices⟩,
       s.vertex_offset, s.index_offset⟩ := rfl

/-- Replaying a fill trace through the winding adapter over a buffers
builder appends exactly `opsVertices` and `opsIndices` and keeps the
offsets. -/
theorem runFillOps_bb (ctor : VertexConstructor) (ops : List TessOp) :
    ∀ s : BBState,
      runFillOps (CcwBuffersBuilder (BuffersBuilder ctor)) s ops =
        ⟨⟨s.buffers.vertices ++ opsVertices ctor.color ops,
          s.buffers.indices ++ opsIndices s.vertex_offset ops⟩,
         s.vertex_offset, s.index_offset⟩ := by
  induction ops with
  | nil => intro s; simp [runFillOps, opsVertices, opsIndices]
  | cons op rest ih =>
    intro s
    cases op with
    | addVertex p =>
      simp only [runFillOps, ccwBB_add_fill_vertex_fst, ih]
      simp [opsVertices, opsIndices]
    | addTriangle a b c =>
      simp only [runFillOps, ccwBB_add_triangle, ih]
      simp [opsVertices, opsIndices]

/-- Same as `runFillOps_bb` for stroke traces. -/
theorem runStrokeOps_bb (ctor : VertexConstructor) (ops : List TessOp) :
    ∀ s : BBState,
      runStrokeOps (CcwBuffersBuilder (BuffersBuilder ctor)) s ops =
        ⟨⟨s.buffers.vertices ++ opsVertices ctor.color ops,
          s.buffers.indices ++ opsIndices s.vertex_offset ops⟩,
         s.vertex_offset, s.index_offset⟩ := by
  induction ops with
  | nil => intro s; simp [runStrokeOps, opsVertices, opsIndices]
  | cons op rest ih =>
    intro s
    cases op with
    | addVertex p =>
      simp only [runStrokeOps, ccwBB_add_stroke_vertex_fst, ih]
      simp [opsVertices, opsIndices]
    | addTriangle a b c =>
      simp only [runStrokeOps, ccwBB_add_triangle, ih]
      simp [opsVertices, opsIndices]

/-- Closed form of a `fill` driver call: scratch state from the tessellator,
buffers extended by the trace's vertices and offset indices, and a log entry
exactly when the tessellator failed. -/
theorem fill_run_eq {τ : Type} (t : FillTessellator τ) (ts : τ) (path : LyonPath)
    (mode : FillMode) (buffers : VertexBuffers) :
    fill t ts path mode buffers =
      ⟨(t.run ts path mode.options).1,
       ⟨buffers.vertices ++ opsVertices mode.color (t.run ts path mode.options).2.1,
        buffers.indices ++ opsIndices buffers.vertices.length (t.run ts path mode.options).2.1⟩,
       (match (t.run ts path mode.options).2.2 with
        | none => []
        | some e => [LogEntry.fillError e])⟩ := by
  unfold fill FillTessellator.tessellate_path
  rcases h : t.run ts path mode.options with ⟨ts', ops, err⟩
  cases err with
  | none =>
    simp only [h, ccwBB_begin, runFillOps_bb, ccwBB_end_fst, ccwBB_abort]
    simp [BBState.new]
  | some e =>
    simp only [h, ccwBB_begin, runFillOps_bb, ccwBB_end_fst, ccwBB_abort]
    simp [BBState.new]

/-- Closed form of a `stroke` driver call, as in `fill_run_eq`. -/
theorem stroke_run_eq {τ : Type} (t : StrokeTessellator τ) (ts : τ) (path : LyonPath)
    (mode : StrokeMode) (buffers : VertexBuffers) :
    stroke t ts path mode buffers =
      ⟨(t.run ts path mode.options).1,
       ⟨buffers.vertices ++ opsVertices mode.color (t.run ts path mode.options).2.1,
        buffers.indices ++ opsIndices buffers.vertices.length (t.run ts path mode.options).2.1⟩,
       (match (t.run ts path mode.options).2.2 with
        | none => []
        | some e => [LogEntry.strokeError e])⟩ := by
  unfold stroke StrokeTessellator.tessellate_path
  rcases h : t.run ts path mode.options with ⟨ts', ops, err⟩
  cases err with
  | none =>
    simp only [h, ccwBB_begin, runStrokeOps_bb, ccwBB_end_fst, ccwBB_abort]
    simp [BBState.new]
  | some e =>
    simp only [h, ccwBB_begin, runStrokeOps_bb, ccwBB_end_fst, ccwBB_abort]
    simp [BBState.new]

/-- The host engine's primitive topology enum (only `TriangleList` is used). -/
inductive PrimitiveTopology
  | pointList
  | lineList
  | lineStrip
  | triangleList
  | triangleStrip
deriving DecidableEq

/-- The host engine's `Mesh`, restricted to what `build_mesh` sets: the
topology chosen at `Mesh::new`, the index buffer, and the position and color
attributes. -/
structure Mesh where
  topology : PrimitiveTopology
  indices : List Nat
  positions : List (Int × Int × Int)
  colors : List Color
deriving DecidableEq

/-- `build_mesh` from `src/plugin.rs` lines 197-218: triangle-list topology,
indices cloned from the buffers, positions widened to 3 components with
`z = 0`, colors taken as-is. -/
def build_mesh (buffers : VertexBuffers) : Mesh where
  topology := .triangleList
  indices := buffers.indices
  positions := buffers.vertices.map (fun v => (v.position.1, v.position.2, (0 : Int)))
  colors := buffers.vertices.map (fun v => v.color)

/-- Handle into the external mesh asset store, embedded as the slot index of
the mesh in the store. -/
abbrev Handle := Nat

/-- `Assets::add`: append the mesh to the store and hand back a fresh handle
to the newly allocated slot. -/
def Assets.add (meshes : List Mesh) (m : Mesh) : List Mesh × Handle :=
  (meshes ++ [m], meshes.length)

/-- One shape entity as the mesh system sees it: its `DrawMode` and `Path`
components, its `Mesh2dHandle` slot, and — modelled from the spec's external
change-notification boundary — the per-attribute changed-this-pass flags
that back `Changed<Path>` / `Changed<DrawMode>`. -/
structure Entity where
  draw_mode : DrawMode
  path : Path
  mesh2d : Handle
  changed_path : Bool
  changed_draw_mode : Bool
deriving DecidableEq

/-- The resources `mesh_shapes_system` touches: the mesh asset store, the
two tessellator scratch states, and the accumulated log. -/
structure SysState (τf τs : Type) where
  meshes : List Mesh
  fill_tess : τf
  stroke_tess : τs
  log : List LogEntry

/-- Result of the per-entity dispatch (the `match tess_mode` block of
`mesh_shapes_system`, lines 78-92): updated tessellator states, the
accumulated buffers, the log entries, and a ghost count of the fill/stroke
driver calls performed. -/
structure DispatchOut (τf τs : Type) where
  fill_tess : τf
  stroke_tess : τs
  buffers : VertexBuffers
  log : List LogEntry
  calls : Nat

/-- The style dispatch of `mesh_shapes_system`: `Fill` → one `fill` call,
`Stroke` → one `stroke` call, `Outlined` → one `fill` call then one `stroke`
call into the same buffers, all starting from `VertexBuffers::new()`. -/
def dispatchDrawMode {τf τs : Type} (tf : FillTessellator τf) (tsr : StrokeTessellator τs)
    (ftState : τf) (stState : τs) (mode : DrawMode) (path : Path) : DispatchOut τf τs :=
  match mode with
  | .fill m =>
    let r := fill tf ftState path.p m VertexBuffers.new
    ⟨r.tess, stState, r.buffers, r.log, 1⟩
  | .stroke m =>
    let r := stroke tsr stState path.p m VertexBuffers.new
    ⟨ftState, r.tess, r.buffers, r.log, 1⟩
  | .outlined fm om =>
    let r1 := fill tf ftState path.p fm VertexBuffers.new
    let r2 := stroke tsr stState path.p om r1.buffers
    ⟨r1.tess, r2.tess, r2.buffers, r1.log ++ r2.log, 2⟩

/-- One iteration of the `mesh_shapes_system` query loop for one entity.
The `Or<(Changed<Path>, Changed<DrawMode>)>` query filter is modelled from
the spec's change-notification boundary: the entity is processed exactly
when one of its changed flags is set; otherwise nothing happens to it.
When processed: fresh buffers, style dispatch, then
`mesh.0 = meshes.add(build_mesh(&buffers))` unconditionally. -/
def processEntity {τf τs : Type} (tf : FillTessellator τf) (tsr : StrokeTessellator τs)
    (st : SysState τf τs) (e : Entity) : SysState τf τs × Entity × Nat :=
  if e.changed_path || e.changed_draw_mode then
    let d := dispatchDrawMode tf tsr st.fill_tess st.stroke_tess e.draw_mode e.path
    let am := Assets.add st.meshes (build_mesh d.buffers)
    (⟨am.1, d.fill_tess, d.stroke_tess, st.log ++ d.log⟩, { e with mesh2d := am.2 }, d.calls)
  else
    (st, e, 0)

/-- `mesh_shapes_system` from `src/plugin.rs` lines 69-96: iterate the
matching entities in order, re-meshing each; returns the final resources,
the entities after the pass, and the ghost total of tessellation calls. -/
def mesh_shapes_system {τf τs : Type} (tf : FillTessellator τf) (tsr : StrokeTessellator τs) :
    SysState τf τs → List Entity → SysState τf τs × List Entity × Nat
  | st, [] => (st, [], 0)
  | st, e :: rest =>
    let pr := processEntity tf tsr st e
    let rr := mesh_shapes_system tf tsr pr.1 rest
    (rr.1, pr.2.1 :: rr.2.1, pr.2.2 + rr.2.2)

/-- One driver call, for stating properties of arbitrary call sequences. -/
inductive TessCall
  | fillCall (mode : FillMode) (path : LyonPath)
  | strokeCall (mode : StrokeMode) (path : LyonPath)

/-- Run a sequence of fill and stroke driver calls into one shared pair of
buffers, threading the tessellator scratch states. -/
def runCalls {τf τs : Type} (tf : FillTessellator τf) (tsr : StrokeTessellator τs) :
    List TessCall → τf × τs × VertexBuffers → τf × τs × VertexBuffers
  | [], st => st
  | .fillCall m p :: rest, (f, s, b) =>
    let r := fill tf f p m b
    runCalls tf tsr rest (r.tess, s, r.buffers)
  | .strokeCall m p :: rest, (f, s, b) =>
    let r := stroke tsr s p m b
    runCalls tf tsr rest (f, r.tess, r.buffers)

/-- The spec's buffer invariant: every index addresses an existing vertex
and the index count is a whole number of triangles. -/
def VertexBuffers.Inv (b : VertexBuffers) : Prop :=
  (∀ i ∈ b.indices, i < b.vertices.length) ∧ b.indices.length % 3 = 0

/-- A trace is well formed when every emitted triangle refers to vertex
identifiers the same run registers (the external tessellator's contract). -/
def WfOps (ops : List TessOp) : Prop :=
  ∀ a b c, TessOp.addTriangle a b c ∈ ops → a < vcount ops ∧ b < vcount ops ∧ c < vcount ops

/-- External contract: every trace the fill tessellator emits is well
formed. -/
def FillTessellator.WfOutput {τ : Type} (t : FillTessellator τ) : Prop :=
  ∀ s p o, WfOps (t.run s p o).2.1

/-- External contract: every trace the stroke tessellator emits is well
formed. -/
def StrokeTessellator.WfOutput {τ : Type} (t : StrokeTessellator τ) : Prop :=
  ∀ s p o, WfOps (t.run s p o).2.1

/-- External contract: the fill tessellator's emitted trace and error depend
only on the path and options, not on its internal scratch state. -/
def FillTessellator.Deterministic {τ : Type} (t : FillTessellator τ) : Prop :=
  ∀ s1 s2 p o, (t.run s1 p o).2 = (t.run s2 p o).2

/-- External contract: the stroke tessellator's emitted trace and error
depend only on the path and options. -/
def StrokeTessellator.Deterministic {τ : Type} (t : StrokeTessellator τ) : Prop :=
  ∀ s1 s2 p o, (t.run s1 p o).2 = (t.run s2 p o).2

/-- The triangular path of the spec's scenario: {(0,0),(1,0),(0,1)}. -/
def trianglePath : LyonPath :=
  [.moveTo (0, 0), .lineTo (1, 0), .lineTo (0, 1), .close]

/-- The trace a fill tessellation of `trianglePath` streams: its three
corners and one triangle over them. -/
def triangleFillOps : List TessOp :=
  [.addVertex (0, 0), .addVertex (1, 0), .addVertex (0, 1), .addTriangle 0 1 2]

/-- Sample fill tessellator: always succeeds with the triangle trace. -/
def sampleFillTess : FillTessellator Unit :=
  ⟨fun s _ _ => (s, triangleFillOps, none)⟩

/-- Sample stroke tessellator: always succeeds with a quad ribbon trace. -/
def sampleStrokeTess : StrokeTessellator Unit :=
  ⟨fun s _ _ => (s, [.addVertex (0, 0), .addVertex (0, 1), .addVertex (1, 1),
    .addVertex (1, 0), .addTriangle 0 1 2, .addTriangle 0 2 3], none)⟩

/-- Sample fill tessellator that always fails at once, emitting nothing. -/
def failFillTess : FillTessellator Unit :=
  ⟨fun s _ _ => (s, [], some ⟨0⟩)⟩

/-- Sample stroke tessellator that always fails at once, emitting nothing. -/
def failStrokeTess : StrokeTessellator Unit :=
  ⟨fun s _ _ => (s, [], some ⟨0⟩)⟩

/-- Sample fill style. -/
def sampleFillMode : FillMode := ⟨⟨0⟩, 7⟩

/-- Sample stroke style. -/
def sampleStrokeMode : StrokeMode := ⟨⟨0, 1, .butt, .butt, .miter, 4⟩, 9⟩

/-- Sample resource state over stateless tessellators. -/
def sampleSys : SysState Unit Unit := ⟨[], (), (), []⟩

/-- C5: `build_mesh` produces a triangle-list mesh whose index buffer is
exactly the accumulated indices, whose position attribute is each 2D vertex
position widened to 3 components with `z = 0`, and whose color attribute is
the vertex colors as-is in order. -/
theorem build_mesh_spec (buffers : VertexBuffers) (i : Nat) :
    (build_mesh buffers).topology = PrimitiveTopology.triangleList ∧
    (build_mesh buffers).indices = buffers.indices ∧
    (build_mesh buffers).positions.length = buffers.vertices.length ∧
    (build_mesh buffers).colors.length = buffers.vertices.length ∧
    (build_mesh buffers).positions.get? i =
      (buffers.vertices.get? i).map (fun v => (v.position.1, v.position.2, (0 : Int))) ∧
    (build_mesh buffers).colors.get? i =
      (buffers.vertices.get? i).map (fun v => v.color) := by
  refine ⟨rfl, rfl, ?_, ?_, ?_, ?_⟩ <;> simp [build_mesh]

/-- C7: `fill` and `stroke` only append to the given buffers — every vertex
and index present before the call is still present, unchanged and at the
same offset, after the call. -/
theorem fill_stroke_append_only {τf τs : Type} (tf : FillTessellator τf)
    (tsr : StrokeTessellator τs) (f : τf) (s : τs) (path pathS : LyonPath)
    (fm : FillMode) (sm : StrokeMode) (buffers buffersS : VertexBuffers) :
    (∃ nv ni, (fill tf f path fm buffers).buffers.vertices = buffers.vertices ++ nv ∧
      (fill tf f path fm buffers).buffers.indices = buffers.indices ++ ni) ∧
    (∃ nv ni, (stroke tsr s pathS sm buffersS).buffers.vertices = buffersS.vertices ++ nv ∧
      (stroke tsr s pathS sm buffersS).buffers.indices = buffersS.indices ++ ni) := by
  exact ⟨⟨_, _, by rw [fill_run_eq], by rw [fill_run_eq]⟩,
         ⟨_, _, by rw [stroke_run_eq], by rw [stroke_run_eq]⟩⟩

/-- C2 counterexample: two distinct paths failing with the same tessellation
error produce bit-identical `fill` results — in particular identical logs —
so the logged failure does not carry the path's identity, contrary to the
claim that the log has enough detail to diagnose the path identity. -/
theorem fill_log_no_path_identity :
    ([PathSeg.close] : LyonPath) ≠ ([] : LyonPath) ∧
    fill failFillTess () [PathSeg.close] sampleFillMode VertexBuffers.new =
      fill failFillTess () [] sampleFillMode VertexBuffers.new := by
  exact ⟨by decide, rfl⟩

/-- C2 (amended): when tessellation fails, `fill` and `stroke` neither panic
nor propagate an error (they return normally; the result type has no error
channel), they append one log record carrying the failing tessellator's kind
and the error detail — though not the path identity — and they leave the
partial geometry emitted before the failure in the buffers with all prior
contents intact, so the caller proceeds to build a mesh from the accumulated
buffers. -/
theorem fill_stroke_fail_recovery {τf τs : Type} (tf : FillTessellator τf)
    (tsr : StrokeTessellator τs) (f : τf) (s : τs) (path pathS : LyonPath)
    (fm : FillMode) (sm : StrokeMode) (b bS : VertexBuffers) (e eS : TessError)
    (hf : (tf.run f path fm.options).2.2 = some e)
    (hs : (tsr.run s pathS sm.options).2.2 = some eS) :
    (fill tf f path fm b).log = [LogEntry.fillError e] ∧
    (fill tf f path fm b).buffers.vertices =
      b.vertices ++ opsVertices fm.color (tf.run f path fm.options).2.1 ∧
    (fill tf f path fm b).buffers.indices =
      b.indices ++ opsIndices b.vertices.length (tf.run f path fm.options).2.1 ∧
    (stroke tsr s pathS sm bS).log = [LogEntry.strokeError eS] ∧
    (stroke tsr s pathS sm bS).buffers.vertices =
      bS.vertices ++ opsVertices sm.color (tsr.run s pathS sm.options).2.1 ∧
    (stroke tsr s pathS sm bS).buffers.indices =
      bS.indices ++ opsIndices bS.vertices.length (tsr.run s pathS sm.options).2.1 := by
  refine ⟨?_, ?_, ?_, ?_, ?_, ?_⟩ <;> simp [fill_run_eq, stroke_run_eq, hf, hs]

/-- Witness for the amended C2 at concrete failing tessellators. -/
theorem fill_stroke_fail_recovery_witness :
    (failFillTess.run () [] sampleFillMode.options).2.2 = some ⟨0⟩ ∧
    (failStrokeTess.run () [] sampleStrokeMode.options).2.2 = some ⟨0⟩ ∧
    (fill failFillTess () [] sampleFillMode VertexBuffers.new).log =
      [LogEntry.fillError ⟨0⟩] := by
  refine ⟨rfl, rfl, ?_⟩
  exact (fill_stroke_fail_recovery failFillTess failStrokeTess () () [] []
    sampleFillMode sampleStrokeMode VertexBuffers.new VertexBuffers.new ⟨0⟩ ⟨0⟩ rfl rfl).1

/-- C6: assuming the library's documented scratch-state independence, the
tessellation output for a given (Path, Style) pair is the same function of
path and style on every call, so tessellating the same pair twice into two
fresh empty buffers yields bit-identical vertex and index sequences, for
every style variant. -/
theorem dispatch_deterministic {τf τs : Type} (tf : FillTessellator τf)
    (tsr : StrokeTessellator τs) (hf : tf.Deterministic) (hs : tsr.Deterministic)
    (f1 f2 : τf) (s1 s2 : τs) (mode : DrawMode) (path : Path) :
    (dispatchDrawMode tf tsr f1 s1 mode path).buffers =
      (dispatchDrawMode tf tsr f2 s2 mode path).buffers := by
  cases mode with
  | fill m =>
    have h1 := hf f1 f2 path.p m.options
    simp [dispatchDrawMode, fill_run_eq, h1]
  | stroke m =>
    have h1 := hs s1 s2 path.p m.options
    simp [dispatchDrawMode, stroke_run_eq, h1]
  | outlined fm om =>
    have h1 := hf f1 f2 path.p fm.options
    have h2 := hs s1 s2 path.p om.options
    simp [dispatchDrawMode, fill_run_eq, stroke_run_eq, h1, h2]

/-- Witness for C6 at concrete deterministic tessellators. -/
theorem dispatch_deterministic_witness :
    sampleFillTess.Deterministic ∧ sampleStrokeTess.Deterministic ∧
    (dispatchDrawMode sampleFillTess sampleStrokeTess () ()
        (DrawMode.outlined sampleFillMode sampleStrokeMode) ⟨trianglePath⟩).buffers =
      (dispatchDrawMode sampleFillTess sampleStrokeTess () ()
        (DrawMode.outlined sampleFillMode sampleStrokeMode) ⟨trianglePath⟩).buffers :=
  ⟨fun _ _ _ _ => rfl, fun _ _ _ _ => rfl,
   dispatch_deterministic sampleFillTess sampleStrokeTess
     (fun _ _ _ _ => rfl) (fun _ _ _ _ => rfl) () () () ()
     (DrawMode.outlined sampleFillMode sampleStrokeMode) ⟨trianglePath⟩⟩

/-- A `stroke` call into pre-filled buffers appends exactly what a stroke
into fresh buffers would produce, with indices shifted by the existing
vertex count. -/
theorem stroke_into_eq {τs : Type} (tsr : StrokeTessellator τs) (s : τs)
    (p : LyonPath) (om : StrokeMode) (b : VertexBuffers) :
    (stroke tsr s p om b).buffers.vertices =
      b.vertices ++ (stroke tsr s p om VertexBuffers.new).buffers.vertices ∧
    (stroke tsr s p om b).buffers.indices =
      b.indices ++ ((stroke tsr s p om VertexBuffers.new).buffers.indices.map
        (fun i => b.vertices.length + i)) := by
  constructor
  · simp [stroke_run_eq, VertexBuffers.new]
  · simp only [stroke_run_eq, VertexBuffers.new]
    rw [opsIndices_eq_map b.vertices.length]
    simp

/-- C4: for every path and `Outlined` style, the dispatch performs exactly
one fill call followed by one stroke call into one shared buffer, and the
resulting buffer is the concatenation of the fill-alone buffers and the
stroke-alone buffers, with every stroke index offset past the fill vertices
(the two sub-passes share no vertices); the mesh built is from that
combined buffer. -/
theorem outlined_concat {τf τs : Type} (tf : FillTessellator τf)
    (tsr : StrokeTessellator τs) (st : SysState τf τs) (e : Entity)
    (fm : FillMode) (om : StrokeMode)
    (hmode : e.draw_mode = DrawMode.outlined fm om)
    (hgate : (e.changed_path || e.changed_draw_mode) = true) :
    (dispatchDrawMode tf tsr st.fill_tess st.stroke_tess e.draw_mode e.path).calls = 2 ∧
    (dispatchDrawMode tf tsr st.fill_tess st.stroke_tess e.draw_mode e.path).buffers.vertices =
      (fill tf st.fill_tess e.path.p fm VertexBuffers.new).buffers.vertices ++
        (stroke tsr st.stroke_tess e.path.p om VertexBuffers.new).buffers.vertices ∧
    (dispatchDrawMode tf tsr st.fill_tess st.stroke_tess e.draw_mode e.path).buffers.indices =
      (fill tf st.fill_tess e.path.p fm VertexBuffers.new).buffers.indices ++
        ((stroke tsr st.stroke_tess e.path.p om VertexBuffers.new).buffers.indices.map
          (fun i =>
            (fill tf st.fill_tess e.path.p fm VertexBuffers.new).buffers.vertices.length + i)) ∧
    (∀ j ∈ (stroke tsr st.stroke_tess e.path.p om VertexBuffers.new).buffers.indices.map
        (fun i =>
          (fill tf st.fill_tess e.path.p fm VertexBuffers.new).buffers.vertices.length + i),
      (fill tf st.fill_tess e.path.p fm VertexBuffers.new).buffers.vertices.length ≤ j) ∧
    (processEntity tf tsr st e).1.meshes =
      st.meshes ++
        [build_mesh
          (dispatchDrawMode tf tsr st.fill_tess st.stroke_tess e.draw_mode e.path).buffers] := by
  refine ⟨?_, ?_, ?_, ?_, ?_⟩
  · rw [hmode]; rfl
  · rw [hmode]
    exact (stroke_into_eq tsr st.stroke_tess e.path.p om
      (fill tf st.fill_tess e.path.p fm VertexBuffers.new).buffers).1
  · rw [hmode]
    exact (stroke_into_eq tsr st.stroke_tess e.path.p om
      (fill tf st.fill_tess e.path.p fm VertexBuffers.new).buffers).2
  · intro j hj
    simp only [List.mem_map] at hj
    obtain ⟨x, _, rfl⟩ := hj
    exact Nat.le_add_right _ _
  · simp [processEntity, hgate, Assets.add]

/-- A sample entity in `Outlined` style with a changed path. -/
def sampleEntityOutlined : Entity :=
  ⟨.outlined sampleFillMode sampleStrokeMode, ⟨trianglePath⟩, 0, true, false⟩

/-- Witness for C4 at concrete tessellators and entity. -/
theorem outlined_concat_witness :
    sampleEntityOutlined.draw_mode = DrawMode.outlined sampleFillMode sampleStrokeMode ∧
    (sampleEntityOutlined.changed_path || sampleEntityOutlined.changed_draw_mode) = true ∧
    (dispatchDrawMode sampleFillTess sampleStrokeTess sampleSys.fill_tess sampleSys.stroke_tess
      sampleEntityOutlined.draw_mode sampleEntityOutlined.path).calls = 2 :=
  ⟨rfl, rfl,
   (outlined_concat sampleFillTess sampleStrokeTess sampleSys sampleEntityOutlined
     sampleFillMode sampleStrokeMode rfl rfl).1⟩

/-- An unprocessed entity (both change flags clear) is left exactly as it
was, with no work done. -/
theorem processEntity_unchanged {τf τs : Type} (tf : FillTessellator τf)
    (tsr : StrokeTessellator τs) (st : SysState τf τs) (e : Entity)
    (hp : e.changed_path = false) (hd : e.changed_draw_mode = false) :
    processEntity tf tsr st e = (st, e, 0) := by
  simp [processEntity, hp, hd]

theorem mesh_shapes_system_sem_length {τf τs : Type} (tf : FillTessellator τf)
    (tsr : StrokeTessellator τs) :
    ∀ (es : List Entity) (st : SysState τf τs),
      (mesh_shapes_system tf tsr st es).2.1.length = es.length := by
  intro es
  induction es with
  | nil => intro st; rfl
  | cons e rest ih => intro st; simp [mesh_shapes_system, ih]

/-- C3: an entity whose `Path` and `DrawMode` are both unchanged is not
touched by a pass of the mesh system — its slot in the output is the entity
itself, mesh handle included — and processing it anywhere performs zero
tessellation calls and changes no resource: the changed flags are the sole
gate for re-tessellation. -/
theorem unchanged_entity_untouched {τf τs : Type} (tf : FillTessellator τf)
    (tsr : StrokeTessellator τs) :
    ∀ (es : List Entity) (st : SysState τf τs) (i : Nat) (e : Entity),
      es.get? i = some e →
      e.changed_path = false → e.changed_draw_mode = false →
      (mesh_shapes_system tf tsr st es).2.1.get? i = some e ∧
      ∀ st' : SysState τf τs, processEntity tf tsr st' e = (st', e, 0) := by
  intro es
  induction es with
  | nil => intro st i e hget; simp at hget
  | cons a rest ih =>
    intro st i e hget hp hd
    cases i with
    | zero =>
      simp only [List.get?] at hget
      injection hget with hget
      subst hget
      refine ⟨?_, fun st' => processEntity_unchanged tf tsr st' a hp hd⟩
      simp [mesh_shapes_system, processEntity_unchanged tf tsr st a hp hd]
    | succ n =>
      have hrec := ih (processEntity tf tsr st a).1 n e (by simpa using hget) hp hd
      refine ⟨?_, hrec.2⟩
      simpa [mesh_shapes_system] using hrec.1

/-- A sample entity with both change flags clear. -/
def sampleEntityUnchanged : Entity :=
  ⟨.fill sampleFillMode, ⟨trianglePath⟩, 5, false, false⟩

/-- Witness for C3 at a concrete one-entity world. -/
theorem unchanged_entity_untouched_witness :
    ([sampleEntityUnchanged].get? 0 = some sampleEntityUnchanged) ∧
    sampleEntityUnchanged.changed_path = false ∧
    sampleEntityUnchanged.changed_draw_mode = false ∧
    (mesh_shapes_system sampleFillTess sampleStrokeTess sampleSys
      [sampleEntityUnchanged]).2.1.get? 0 = some sampleEntityUnchanged :=
  ⟨rfl, rfl, rfl,
   (unchanged_entity_untouched sampleFillTess sampleStrokeTess [sampleEntityUnchanged]
     sampleSys 0 sampleEntityUnchanged rfl rfl rfl).1⟩

/-- Appending one well-formed run's output to buffers satisfying the index
invariant preserves the invariant. -/
theorem inv_append (b : VertexBuffers) (c : Color) (ops : List TessOp)
    (hb : b.Inv) (hwf : WfOps ops) :
    VertexBuffers.Inv
      ⟨b.vertices ++ opsVertices c ops, b.indices ++ opsIndices b.vertices.length ops⟩ := by
  obtain ⟨hidx, hmod⟩ := hb
  constructor
  · intro i hi
    have hi' : i ∈ b.indices ++ opsIndices b.vertices.length ops := hi
    show i < (b.vertices ++ opsVertices c ops).length
    simp only [List.length_append, opsVertices_length]
    rcases List.mem_append.1 hi' with h | h
    · have := hidx i h; omega
    · obtain ⟨x, y, z, hmem, hv⟩ := mem_opsIndices b.vertices.length ops i h
      obtain ⟨hx, hy, hz⟩ := hwf x y z hmem
      rcases hv with rfl | rfl | rfl <;> omega
  · show (b.indices ++ opsIndices b.vertices.length ops).length % 3 = 0
    simp only [List.length_append]
    have h3 := opsIndices_length_mod3 b.vertices.length ops
    omega

/-- Any sequence of driver calls with well-formed tessellator output
preserves the buffer invariant. -/
theorem calls_preserve_inv {τf τs : Type} (tf : FillTessellator τf)
    (tsr : StrokeTessellator τs) (hwf : tf.WfOutput) (hws : tsr.WfOutput) :
    ∀ (calls : List TessCall) (f : τf) (s : τs) (b : VertexBuffers),
      b.Inv → (runCalls tf tsr calls (f, s, b)).2.2.Inv := by
  intro calls
  induction calls with
  | nil => intro f s b hb; exact hb
  | cons call rest ih =>
    intro f s b hb
    cases call with
    | fillCall m p =>
      simp only [runCalls]
      apply ih
      rw [fill_run_eq]
      exact inv_append b m.color (tf.run f p m.options).2.1 hb (hwf f p m.options)
    | strokeCall m p =>
      simp only [runCalls]
      apply ih
      rw [stroke_run_eq]
      exact inv_append b m.color (tsr.run s p m.options).2.1 hb (hws s p m.options)

/-- C9: after any sequence of fill and stroke calls into a fresh
`VertexBuffers` — including calls that fail partway, whose partial traces
the contract also covers — every index is strictly less than the vertex
count and the index count is a multiple of 3. -/
theorem buffers_invariant_holds {τf τs : Type} (tf : FillTessellator τf)
    (tsr : StrokeTessellator τs) (hwf : tf.WfOutput) (hws : tsr.WfOutput)
    (calls : List TessCall) (f : τf) (s : τs) :
    (runCalls tf tsr calls (f, s, VertexBuffers.new)).2.2.Inv :=
  calls_preserve_inv tf tsr hwf hws calls f s VertexBuffers.new
    ⟨fun i hi => absurd hi (List.not_mem_nil i), rfl⟩

theorem sampleFillTess_wf : sampleFillTess.WfOutput := by
  intro s p o a b c h
  have hv : vcount (sampleFillTess.run s p o).2.1 = 3 := rfl
  simp [sampleFillTess, triangleFillOps] at h
  obtain ⟨rfl, rfl, rfl⟩ := h
  omega

theorem sampleStrokeTess_wf : sampleStrokeTess.WfOutput := by
  intro s p o a b c h
  have hv : vcount (sampleStrokeTess.run s p o).2.1 = 4 := rfl
  simp [sampleStrokeTess] at h
  rcases h with ⟨rfl, rfl, rfl⟩ | ⟨rfl, rfl, rfl⟩ <;> omega

/-- Witness for C9 at concrete tessellators and a two-call sequence. -/
theorem buffers_invariant_holds_witness :
    (runCalls sampleFillTess sampleStrokeTess
      [.fillCall sampleFillMode trianglePath, .strokeCall sampleStrokeMode trianglePath]
      ((), (), VertexBuffers.new)).2.2.Inv :=
  buffers_invariant_holds sampleFillTess sampleStrokeTess
    sampleFillTess_wf sampleStrokeTess_wf
    [.fillCall sampleFillMode trianglePath, .strokeCall sampleStrokeMode trianglePath] () ()

/-- C10: every entity the mesh system processes has its mesh handle
unconditionally overwritten with a handle to a freshly allocated mesh slot;
and when every tessellation call for the entity fails emitting nothing, the
freshly allocated mesh is built from completely empty buffers — the prior
mesh is never kept on tessellation failure. -/
theorem processed_entity_handle_overwritten {τf τs : Type} (tf : FillTessellator τf)
    (tsr : StrokeTessellator τs) (st : SysState τf τs) (e : Entity)
    (hgate : (e.changed_path || e.changed_draw_mode) = true) :
    (processEntity tf tsr st e).2.1 = { e with mesh2d := st.meshes.length } ∧
    (processEntity tf tsr st e).1.meshes =
      st.meshes ++
        [build_mesh
          (dispatchDrawMode tf tsr st.fill_tess st.stroke_tess e.draw_mode e.path).buffers] ∧
    ((∀ p o, (tf.run st.fill_tess p o).2.1 = ([] : List TessOp)) →
     (∀ p o, (tf.run st.fill_tess p o).2.2 ≠ none) →
     (∀ p o, (tsr.run st.stroke_tess p o).2.1 = ([] : List TessOp)) →
     (∀ p o, (tsr.run st.stroke_tess p o).2.2 ≠ none) →
     (dispatchDrawMode tf tsr st.fill_tess st.stroke_tess e.draw_mode e.path).buffers =
        VertexBuffers.new ∧
     build_mesh VertexBuffers.new = ⟨PrimitiveTopology.triangleList, [], [], []⟩) := by
  refine ⟨?_, ?_, ?_⟩
  · simp [processEntity, hgate, Assets.add]
  · simp [processEntity, hgate, Assets.add]
  · intro h1 _h2 h3 _h4
    refine ⟨?_, rfl⟩
    cases hdm : e.draw_mode with
    | fill m =>
      simp [dispatchDrawMode, fill_run_eq, h1, VertexBuffers.new, opsVertices, opsIndices]
    | stroke m =>
      simp [dispatchDrawMode, stroke_run_eq, h3, VertexBuffers.new, opsVertices, opsIndices]
    | outlined fm om =>
      simp [dispatchDrawMode, fill_run_eq, stroke_run_eq, h1, h3, VertexBuffers.new,
        opsVertices, opsIndices]

/-- A sample `Outlined` entity whose stale handle 5 must be overwritten. -/
def sampleEntityStale : Entity :=
  ⟨.outlined sampleFillMode sampleStrokeMode, ⟨trianglePath⟩, 5, true, false⟩

/-- Witness for C10 at always-failing tessellators. -/
theorem processed_entity_handle_overwritten_witness :
    (sampleEntityStale.changed_path || sampleEntityStale.changed_draw_mode) = true ∧
    (processEntity failFillTess failStrokeTess sampleSys sampleEntityStale).2.1 =
      { sampleEntityStale with mesh2d := sampleSys.meshes.length } :=
  ⟨rfl,
   (processed_entity_handle_overwritten failFillTess failStrokeTess sampleSys
     sampleEntityStale rfl).1⟩

/-- C8: every vertex a fill or stroke call appends carries the style's
color; and on the triangular path {(0,0),(1,0),(0,1)} with a fill style of
color `red`, given the tessellator's trace for that path (its three corners
and one triangle over them), the call produces exactly 3 vertices, exactly
3 indices forming 1 triangle, all vertices colored `red`, and mesh positions
matching the input extended with `z = 0`. -/
theorem fill_color_stamp_scenario {τf τs : Type} (t : FillTessellator τf)
    (tsr : StrokeTessellator τs) (ts : τf) (ss : τs) (path pathS : LyonPath)
    (fm : FillMode) (sm : StrokeMode) (b bS : VertexBuffers) (red : Color) (tol : Int)
    (hscen : (t.run ts trianglePath ⟨tol⟩).2 = (triangleFillOps, none)) :
    (∀ v ∈ (fill t ts path fm b).buffers.vertices, v ∈ b.vertices ∨ v.color = fm.color) ∧
    (∀ v ∈ (stroke tsr ss pathS sm bS).buffers.vertices, v ∈ bS.vertices ∨ v.color = sm.color) ∧
    (fill t ts trianglePath ⟨⟨tol⟩, red⟩ VertexBuffers.new).buffers.vertices =
      [⟨(0, 0), red⟩, ⟨(1, 0), red⟩, ⟨(0, 1), red⟩] ∧
    (fill t ts trianglePath ⟨⟨tol⟩, red⟩ VertexBuffers.new).buffers.indices = [0, 2, 1] ∧
    (build_mesh (fill t ts trianglePath ⟨⟨tol⟩, red⟩ VertexBuffers.new).buffers).positions =
      [((0 : Int), (0 : Int), (0 : Int)), (1, 0, 0), (0, 1, 0)] ∧
    (build_mesh (fill t ts trianglePath ⟨⟨tol⟩, red⟩ VertexBuffers.new).buffers).colors =
      [red, red, red] := by
  refine ⟨?_, ?_, ?_, ?_, ?_, ?_⟩
  · rw [fill_run_eq]
    intro v hv
    rcases List.mem_append.1 hv with h | h
    · exact Or.inl h
    · exact Or.inr (opsVertices_color fm.color _ v h)
  · rw [stroke_run_eq]
    intro v hv
    rcases List.mem_append.1 hv with h | h
    · exact Or.inl h
    · exact Or.inr (opsVertices_color sm.color _ v h)
  · simp [fill_run_eq, hscen, triangleFillOps, opsVertices, VertexBuffers.new]
  · simp [fill_run_eq, hscen, triangleFillOps, opsIndices, VertexBuffers.new]
  · simp [fill_run_eq, hscen, triangleFillOps, opsVertices, VertexBuffers.new, build_mesh]
  · simp [fill_run_eq, hscen, triangleFillOps, opsVertices, VertexBuffers.new, build_mesh]

/-- Witness for C8 at the sample tessellator, red = 3. -/
theorem fill_color_stamp_scenario_witness :
    (sampleFillTess.run () trianglePath ⟨0⟩).2 = (triangleFillOps, none) ∧
    (fill sampleFillTess () trianglePath ⟨⟨0⟩, 3⟩ VertexBuffers.new).buffers.vertices =
      [⟨(0, 0), 3⟩, ⟨(1, 0), 3⟩, ⟨(0, 1), 3⟩] :=
  ⟨rfl,
   (fill_color_stamp_scenario sampleFillTess sampleStrokeTess () () trianglePath
     trianglePath ⟨⟨0⟩, 3⟩ sampleStrokeMode VertexBuffers.new VertexBuffers.new 3 0
     rfl).2.2.1⟩

end BevyLyon
